import Mathlib

/-!
Verification of the isolate-wrapper judging core against its specification.

The Python sources are shallowly embedded: pure functions become Lean
functions, the mutable interpreter state becomes an explicit state record,
Python exceptions become `Except` values, Python machine-independent ints
become `ℤ`, and Python floats parsed from decimal metadata strings become `ℚ`.
-/

namespace IsolateWrapper

/-- The `Verdict` enumeration from `custom_types.py`. -/
inductive Verdict where
  | AC
  | WA
  | TLE
  | MLE
  | RE
  | CE
  | SE
  | WJ
  | NOF
deriving DecidableEq, Repr

/-- The priority list `verdict_importance_order` inside
`IsolateSandbox.decide_final_verdict` (`main.py`). -/
def verdict_importance_order : List Verdict :=
  [.WJ, .SE, .CE, .NOF, .WA, .RE, .TLE, .MLE]

/-- `IsolateSandbox.decide_final_verdict` (`main.py`): scan the priority
order and return the first verdict that occurs in the input list, else AC. -/
def decide_final_verdict (verdicts : List Verdict) : Verdict :=
  match verdict_importance_order.find? (fun v => verdicts.contains v) with
  | some v => v
  | none => Verdict.AC

/-- Python-level exceptions raised by `decide_RE_verdict`. -/
inductive PyErr where
  | keyError
  | unexpectedStatus
deriving DecidableEq, Repr

/-- The sandbox metadata dictionary, restricted to the keys the judging code
reads (`status`, `time`, `max-rss`); a `none` field models an absent key. -/
structure Metadata where
  status : Option String
  time : Option ℚ
  maxRss : Option ℤ

/-- `IsolateSandbox.decide_RE_verdict` (`main.py`).  Accessing a missing
`status` key is a `KeyError`; the final `raise` is `unexpectedStatus`.
The Python comparison `float(metadata[...]) > memory_limit * 0.8` is
embedded over `ℚ` with `0.8 = 8/10`. -/
def decide_RE_verdict (metadata : Metadata) (memory_limit : ℤ) : Except PyErr Verdict :=
  match metadata.status with
  | none => .error .keyError
  | some s =>
    if s = "XX" then .ok .SE
    else if s = "TO" then .ok .TLE
    else if s = "RE" ∨ s = "SG" then
      match metadata.maxRss with
      | some rss => if (rss : ℚ) > (memory_limit : ℚ) * (8 / 10) then .ok .MLE else .ok .RE
      | none => .ok .RE
    else if s = "OK" then .ok .AC
    else .error .unexpectedStatus

section FinalVerdict

lemma find?_congr_on {α : Type} (l : List α) (p q : α → Bool)
    (h : ∀ x ∈ l, p x = q x) : l.find? p = l.find? q := by
  induction l with
  | nil => rfl
  | cons a t ih =>
    have ha : p a = q a := h a (List.mem_cons_self a t)
    have ht : ∀ x ∈ t, p x = q x := fun x hx => h x (List.mem_cons_of_mem a hx)
    simp only [List.find?, ha, ih ht]

lemma find?_append_cons {α : Type} (pre rest : List α) (v : α) (p : α → Bool)
    (h1 : ∀ w ∈ pre, p w = false) (h2 : p v = true) :
    (pre ++ v :: rest).find? p = some v := by
  induction pre with
  | nil => simp [List.find?, h2]
  | cons a t ih =>
    have ha : p a = false := h1 a (List.mem_cons_self a t)
    have ht : ∀ w ∈ t, p w = false := fun w hw => h1 w (List.mem_cons_of_mem a hw)
    simp [List.find?, ha, ih ht]

lemma decide_final_verdict_singleton (v : Verdict) : decide_final_verdict [v] = v := by
  cases v <;> rfl

lemma mem_order_of_ne_AC (v : Verdict) (h : v ≠ Verdict.AC) :
    v ∈ verdict_importance_order := by
  cases v <;> simp [verdict_importance_order] at h ⊢

lemma ne_AC_of_mem_order (v : Verdict) (h : v ∈ verdict_importance_order) :
    v ≠ Verdict.AC := by
  revert h; cases v <;> simp [verdict_importance_order]

lemma decide_final_verdict_eq_AC (vs : List Verdict) :
    decide_final_verdict vs = Verdict.AC ↔ ∀ w ∈ vs, w = Verdict.AC := by
  constructor
  · intro h w hw
    by_contra hne
    rcases hfind : verdict_importance_order.find? (fun v => vs.contains v) with _ | u
    · rw [List.find?_eq_none] at hfind
      exact (hfind w (mem_order_of_ne_AC w hne)) (by simpa [List.elem_iff] using hw)
    · have := List.find?_some hfind
      have hu : u ≠ Verdict.AC := ne_AC_of_mem_order u (List.mem_of_find?_eq_some hfind)
      apply hu
      rw [← h]
      unfold decide_final_verdict
      rw [hfind]
  · intro h
    unfold decide_final_verdict
    have : verdict_importance_order.find? (fun v => vs.contains v) = none := by
      rw [List.find?_eq_none]
      intro x hx hc
      have hxvs : x ∈ vs := by simpa [List.elem_iff] using hc
      exact ne_AC_of_mem_order x hx (h x hxvs)
    rw [this]

end FinalVerdict

/-- C2: `decide_final_verdict` is idempotent, order-independent (it depends
only on which verdicts occur in the list), returns the first verdict of the
priority order WJ, SE, CE, NOF, WA, RE, TLE, MLE that occurs anywhere in the
list, returns AC for the empty list, and returns AC iff the list contains no
non-AC verdict. -/
theorem claim_C2 (vs vs' pre rest : List Verdict) (v : Verdict) :
    decide_final_verdict [decide_final_verdict vs] = decide_final_verdict vs
    ∧ ((∀ w, w ∈ vs ↔ w ∈ vs') → decide_final_verdict vs = decide_final_verdict vs')
    ∧ (verdict_importance_order = pre ++ v :: rest → v ∈ vs →
        (∀ w ∈ pre, w ∉ vs) → decide_final_verdict vs = v)
    ∧ decide_final_verdict [] = Verdict.AC
    ∧ (decide_final_verdict vs = Verdict.AC ↔ ∀ w ∈ vs, w = Verdict.AC) := by
  refine ⟨decide_final_verdict_singleton _, ?_, ?_, rfl, decide_final_verdict_eq_AC vs⟩
  · intro h
    unfold decide_final_verdict
    rw [find?_congr_on verdict_importance_order
      (fun w => vs.contains w) (fun w => vs'.contains w)
      (fun x _ => by simp [List.elem_iff, h x])]
  · intro horder hv hpre
    unfold decide_final_verdict
    rw [horder, find?_append_cons]
    · intro w hw
      simpa [List.elem_iff] using hpre w hw
    · simpa [List.elem_iff] using hv

/-- Witness for C2 at a concrete instance: `[WA, AC]` reduces to `WA`,
the first priority-order verdict present. -/
theorem claim_C2_witness :
    decide_final_verdict [Verdict.WA, Verdict.AC] = Verdict.WA :=
  (claim_C2 [Verdict.WA, Verdict.AC] [Verdict.WA, Verdict.AC]
      [.WJ, .SE, .CE, .NOF] [.RE, .TLE, .MLE] Verdict.WA).2.2.1
    (by decide) (by decide) (by decide)

/-- C1: `decide_RE_verdict`, given metadata carrying a `status` key, returns
SE for status `XX`, TLE for `TO`; for `RE`/`SG` it returns MLE when a
`max-rss` value is present and exceeds 0.8 times the memory limit and RE
otherwise; AC for `OK`; and it raises for any other status value. -/
theorem claim_C1 (md : Metadata) (ml : ℤ) (s : String) (hs : md.status = some s) :
    (s = "XX" → decide_RE_verdict md ml = .ok .SE)
    ∧ (s = "TO" → decide_RE_verdict md ml = .ok .TLE)
    ∧ ((s = "RE" ∨ s = "SG") → ∀ rss, md.maxRss = some rss →
        ((rss : ℚ) > (ml : ℚ) * (8 / 10) → decide_RE_verdict md ml = .ok .MLE)
        ∧ (¬((rss : ℚ) > (ml : ℚ) * (8 / 10)) → decide_RE_verdict md ml = .ok .RE))
    ∧ ((s = "RE" ∨ s = "SG") → md.maxRss = none → decide_RE_verdict md ml = .ok .RE)
    ∧ (s = "OK" → decide_RE_verdict md ml = .ok .AC)
    ∧ (s ≠ "XX" → s ≠ "TO" → s ≠ "RE" → s ≠ "SG" → s ≠ "OK" →
        decide_RE_verdict md ml = .error .unexpectedStatus) := by
  have hXXTO : s = "RE" ∨ s = "SG" → ¬(s = "XX") ∧ ¬(s = "TO") := by
    rintro (rfl | rfl) <;> exact ⟨by decide, by decide⟩
  refine ⟨?_, ?_, ?_, ?_, ?_, ?_⟩
  · rintro rfl
    simp [decide_RE_verdict, hs]
  · rintro rfl
    simp [decide_RE_verdict, hs]
  · intro hre rss hrss
    obtain ⟨h1, h2⟩ := hXXTO hre
    constructor <;> intro hcmp <;>
      simp [decide_RE_verdict, hs, h1, h2, hre, hrss, hcmp]
  · intro hre hnone
    obtain ⟨h1, h2⟩ := hXXTO hre
    simp [decide_RE_verdict, hs, h1, h2, hre, hnone]
  · rintro rfl
    simp [decide_RE_verdict, hs]
  · intro h1 h2 h3 h4 h5
    simp [decide_RE_verdict, hs, h1, h2, h3, h4, h5]

/-- Witness for C1 at a concrete instance: status `XX` yields SE. -/
theorem claim_C1_witness :
    decide_RE_verdict ⟨some "XX", none, none⟩ 0 = .ok .SE :=
  (claim_C1 ⟨some "XX", none, none⟩ 0 "XX" rfl).1 rfl

/-- C10: for metadata whose status is `RE` or `SG` but with no `max-rss`
key, `decide_RE_verdict` returns RE; MLE is only ever returned when a
`max-rss` value is present (and exceeds 0.8 times the memory limit). -/
theorem claim_C10 (md : Metadata) (ml : ℤ) (s : String) (hs : md.status = some s)
    (hre : s = "RE" ∨ s = "SG") :
    (md.maxRss = none → decide_RE_verdict md ml = .ok .RE)
    ∧ (decide_RE_verdict md ml = .ok .MLE →
        ∃ rss, md.maxRss = some rss ∧ (rss : ℚ) > (ml : ℚ) * (8 / 10)) := by
  have hXXTO : ¬(s = "XX") ∧ ¬(s = "TO") := by
    rcases hre with rfl | rfl <;> exact ⟨by decide, by decide⟩
  obtain ⟨h1, h2⟩ := hXXTO
  constructor
  · intro hnone
    simp [decide_RE_verdict, hs, h1, h2, hre, hnone]
  · intro hmle
    rcases hrss : md.maxRss with _ | rss
    · simp [decide_RE_verdict, hs, h1, h2, hre, hrss] at hmle
    · refine ⟨rss, rfl, ?_⟩
      by_contra hcmp
      simp [decide_RE_verdict, hs, h1, h2, hre, hrss, hcmp] at hmle

/-- Witness for C10 at a concrete instance: status `SG`, no `max-rss`,
verdict RE. -/
theorem claim_C10_witness :
    decide_RE_verdict ⟨some "SG", none, none⟩ 1024 = .ok .RE :=
  (claim_C10 ⟨some "SG", none, none⟩ 1024 "SG" rfl (Or.inr rfl)).1 rfl

/-- Python `int(x)` applied to a float/rational: truncation toward zero. -/
def pyTrunc (q : ℚ) : ℤ :=
  if q < 0 then ⌈q⌉ else ⌊q⌋

/-- The `Result` record from `custom_types.py`, as built by
`IsolateSandbox.judge` (time in ms, memory in KB, −1 when unknown). -/
structure ResultR where
  verdict : Verdict
  time : ℤ
  memory : ℤ
  message : String
deriving DecidableEq

/-- The `Result(...)` construction in `IsolateSandbox.judge` (`main.py`):
`time = int(float(metadata['time']) * 1000) if 'time' in metadata else -1`,
`memory = int(metadata['max-rss']) if 'max-rss' in metadata else -1`. -/
def judge_result (verdict : Verdict) (metadata : Metadata) (message : String) : ResultR :=
  { verdict := verdict
    time :=
      match metadata.time with
      | some t => pyTrunc (t * 1000)
      | none => -1
    memory :=
      match metadata.maxRss with
      | some m => m
      | none => -1
    message := message }

/-- C5 counterexample: for a metadata time of `1/512` s (a value exactly
representable in binary floating point, so the Python float computation
is exact), the code computes `int(1.953125) = 1` while the claim's
`round(1.953125)` is `2`. -/
theorem claim_C5_counterexample :
    (judge_result .AC ⟨some "OK", some (1 / 512), none⟩ "").time = 1
    ∧ round ((1 / 512 : ℚ) * 1000) = 2 ∧ (1 : ℤ) ≠ 2 := by
  refine ⟨?_, ?_, by decide⟩
  · show pyTrunc ((1 / 512 : ℚ) * 1000) = 1
    rw [pyTrunc, if_neg (by norm_num)]
    norm_num [Int.floor_eq_iff]
  · rw [round_eq]
    norm_num [Int.floor_eq_iff]

/-- C5 (amended): the yielded Result's time field is the metadata time in
seconds times 1000 truncated (for the nonnegative times the sandbox reports,
the floor), not rounded to nearest, when a `time` key is present, and −1
otherwise; the memory field is the `max-rss` value when present and −1
otherwise. -/
theorem claim_C5_amended (metadata : Metadata) (v : Verdict) (msg : String) :
    (∀ q, metadata.time = some q → 0 ≤ q →
      (judge_result v metadata msg).time = ⌊q * 1000⌋)
    ∧ (metadata.time = none → (judge_result v metadata msg).time = -1)
    ∧ (∀ m, metadata.maxRss = some m → (judge_result v metadata msg).memory = m)
    ∧ (metadata.maxRss = none → (judge_result v metadata msg).memory = -1) := by
  refine ⟨?_, ?_, ?_, ?_⟩
  · intro q hq hq0
    simp only [judge_result, hq]
    rw [pyTrunc, if_neg (not_lt.mpr (by positivity))]
  · intro hq
    simp [judge_result, hq]
  · intro m hm
    simp [judge_result, hm]
  · intro hm
    simp [judge_result, hm]

/-- Witness for the amended C5 at a concrete instance: time `3/2` s gives
`⌊1500⌋ = 1500` ms. -/
theorem claim_C5_amended_witness :
    (judge_result .AC ⟨some "OK", some (3 / 2), some 5⟩ "").time = ⌊((3 / 2 : ℚ) * 1000 : ℚ)⌋ :=
  (claim_C5_amended ⟨some "OK", some (3 / 2), some 5⟩ .AC "").1 (3 / 2) rfl (by norm_num)

/-- The time-limit handling in `SourceCode.run` (`source_code.py`):
`time_limit //= 1000` (Python floor division), then the sandbox is invoked
with `-t time_limit` and `-w time_limit + 1`. -/
def run_limit_args (time_limit : ℤ) : ℤ × ℤ :=
  let tl := Int.fdiv time_limit 1000
  (tl, tl + 1)

/-- C6: `run` passes a CPU limit equal to the time limit converted from
milliseconds to (whole) seconds — the unique integer second count `s` with
`s·1000 ≤ time_limit < (s+1)·1000` — and a wall-clock limit exceeding the
CPU limit by exactly 1 second. -/
theorem claim_C6 (time_limit : ℤ) :
    (run_limit_args time_limit).2 = (run_limit_args time_limit).1 + 1
    ∧ (run_limit_args time_limit).1 * 1000 ≤ time_limit
    ∧ time_limit < ((run_limit_args time_limit).1 + 1) * 1000 := by
  refine ⟨rfl, ?_, ?_⟩
  · rw [run_limit_args, Int.fdiv_eq_ediv _ (by norm_num)]
    exact Int.ediv_mul_le time_limit (by norm_num)
  · rw [run_limit_args, Int.fdiv_eq_ediv _ (by norm_num)]
    exact Int.lt_ediv_add_one_mul_self time_limit (by norm_num)

section OutputChecker

/-- The line-terminator characters recognised by Python `str.splitlines`. -/
def lineBreakChars : List Char :=
  ['\n', '\r', '\x0b', '\x0c', '\x1c', '\x1d', '\x1e', '\x85', '\u2028', '\u2029']

/-- Python `str.splitlines` over a character list: terminators end a line
(`\r\n` counting as one), and a trailing segment without a terminator is
kept; the terminators themselves are dropped. -/
def pySplitlinesAux : List Char → List Char → List (List Char)
  | [], acc => if acc = [] then [] else [acc.reverse]
  | '\r' :: '\n' :: rest, acc => acc.reverse :: pySplitlinesAux rest []
  | c :: rest, acc =>
    if c ∈ lineBreakChars then acc.reverse :: pySplitlinesAux rest []
    else pySplitlinesAux rest (c :: acc)

/-- Python `str.splitlines` on a string's characters. -/
def pySplitlinesL (l : List Char) : List (List Char) :=
  pySplitlinesAux l []

/-- The whitespace characters stripped by Python `str.rstrip()`. -/
def pyIsSpace (c : Char) : Bool :=
  c ∈ [' ', '\t', '\n', '\r', '\x0b', '\x0c', '\x1c', '\x1d', '\x1e', '\x1f',
       '\x85', '\xa0', '\u1680', '\u2000', '\u2001', '\u2002', '\u2003', '\u2004',
       '\u2005', '\u2006', '\u2007', '\u2008', '\u2009', '\u200a', '\u2028',
       '\u2029', '\u202f', '\u205f', '\u3000']

/-- Python `str.rstrip()` over a character list. -/
def pyRstrip (l : List Char) : List Char :=
  (l.reverse.dropWhile pyIsSpace).reverse

/-- `IsolateSandbox.check_output` (`main.py`): reject on differing line
counts, else compare lines pairwise after right-trimming each. -/
def check_output (output answer : String) : Bool :=
  let output_lines := pySplitlinesL output.data
  let answer_lines := pySplitlinesL answer.data
  if output_lines.length ≠ answer_lines.length then false
  else (output_lines.zip answer_lines).all (fun p => pyRstrip p.1 == pyRstrip p.2)

lemma mem_zip_self {α : Type} {p : α × α} {l : List α} (h : p ∈ l.zip l) :
    p.1 = p.2 := by
  induction l with
  | nil => cases h
  | cons a t ih =>
    rw [List.zip_cons_cons] at h
    rcases List.mem_cons.mp h with rfl | h'
    · rfl
    · exact ih h'

end OutputChecker

/-- C8: `check_output` returns false when the two strings split into
different numbers of lines, and otherwise returns true iff all
corresponding lines agree after right-trimming trailing whitespace
(interior whitespace is compared verbatim); in particular it accepts any
string against itself. -/
theorem claim_C8 (output answer : String) :
    ((pySplitlinesL output.data).length ≠ (pySplitlinesL answer.data).length →
      check_output output answer = false)
    ∧ (check_output output answer = true ↔
        ((pySplitlinesL output.data).length = (pySplitlinesL answer.data).length ∧
          ∀ p ∈ (pySplitlinesL output.data).zip (pySplitlinesL answer.data),
            pyRstrip p.1 = pyRstrip p.2))
    ∧ check_output output output = true := by
  refine ⟨?_, ?_, ?_⟩
  · intro h
    simp [check_output, h]
  · by_cases h : (pySplitlinesL output.data).length = (pySplitlinesL answer.data).length
    · simp [check_output, h, List.all_eq_true]
    · simp [check_output, h]
  · have h8 : ∀ p ∈ (pySplitlinesL output.data).zip (pySplitlinesL output.data),
        (pyRstrip p.1 == pyRstrip p.2) = true := fun p hp => by
      rw [mem_zip_self hp]; simp
    show (if _ then false else _) = true
    rw [if_neg (by simp)]
    exact List.all_eq_true.mpr h8

/-- Witness for C8 at a concrete instance: two lines against one line is
rejected. -/
theorem claim_C8_witness : check_output "a\nb" "a" = false :=
  (claim_C8 "a\nb" "a").1 (by decide)

section ErrorDigest

/-- Python `str.split('\n')` over a character list: split on every newline,
keeping empty segments (so the empty string gives one empty segment). -/
def splitNl : List Char → List (List Char)
  | [] => [[]]
  | '\n' :: t => [] :: splitNl t
  | c :: t =>
    match splitNl t with
    | [] => [[c]]
    | h :: r => (c :: h) :: r

/-- Python `'\n'.join(...)` over character lists. -/
def joinNl : List (List Char) → List Char
  | [] => []
  | [x] => x
  | x :: r => x ++ '\n' :: joinNl r

/-- The stderr preprocessing in `SourceCode.run` (`source_code.py`):
`'\n'.join(stderr.split('\n')[:-2])` — drop the last two lines. -/
def pyJoinDropLastTwo (stderr : String) : String :=
  let parts := splitNl stderr.data
  String.mk (joinNl (parts.take (parts.length - 2)))

/-- Python `str.find` over character lists: index of the first occurrence
of `pat`, or `none` (Python's `-1`). -/
def pyFind : List Char → List Char → Option ℕ
  | [], pat => if pat.isPrefixOf ([] : List Char) then some 0 else none
  | c :: t, pat =>
    if pat.isPrefixOf (c :: t) then some 0
    else (pyFind t pat).map (· + 1)

/-- The marker searched for in Python stderr. -/
def pythonTracebackMarker : String := "Traceback (most recent call last):"

/-- The PYTHON branch of the error digest in `SourceCode.run`
(`source_code.py`): `error_raw.find('Traceback (most recent call last):')`,
then the slice from that index, or the whole remainder on `-1`. -/
def python_error_digest (stderr : String) : String :=
  let error_raw := pyJoinDropLastTwo stderr
  match pyFind error_raw.data pythonTracebackMarker.data with
  | some i => String.mk (error_raw.data.drop i)
  | none => error_raw

/-- Modelled from the spec for comparison only (this is the claim's
reading, not the code's): the digest beginning at the LAST occurrence of
the traceback marker. -/
def spec_error_digest_last (stderr : String) : String :=
  let error_raw := pyJoinDropLastTwo stderr
  match ((List.range (error_raw.data.length + 1)).filter
      (fun i => pythonTracebackMarker.data.isPrefixOf (error_raw.data.drop i))).getLast? with
  | some i => String.mk (error_raw.data.drop i)
  | none => error_raw

lemma pyFind_some_spec (hay : List Char) :
    ∀ (pat : List Char) (i : ℕ), pyFind hay pat = some i →
      pat.isPrefixOf (hay.drop i) = true
      ∧ ∀ j < i, pat.isPrefixOf (hay.drop j) = false := by
  induction hay with
  | nil =>
    intro pat i h
    rw [pyFind] at h
    by_cases hp : pat.isPrefixOf ([] : List Char) = true
    · rw [if_pos hp] at h
      cases h
      exact ⟨hp, fun j hj => absurd hj (Nat.not_lt_zero j)⟩
    · rw [if_neg hp] at h
      cases h
  | cons c t ih =>
    intro pat i h
    rw [pyFind] at h
    by_cases hp : pat.isPrefixOf (c :: t) = true
    · rw [if_pos hp] at h
      cases h
      exact ⟨hp, fun j hj => absurd hj (Nat.not_lt_zero j)⟩
    · rw [if_neg hp] at h
      rcases Option.map_eq_some'.mp h with ⟨i', hi', rfl⟩
      obtain ⟨h1, h2⟩ := ih pat i' hi'
      refine ⟨h1, ?_⟩
      intro j hj
      cases j with
      | zero => exact Bool.not_eq_true _ ▸ (by simpa using hp)
      | succ j' => exact h2 j' (Nat.lt_of_succ_lt_succ hj)

lemma pyFind_none_spec (hay : List Char) :
    ∀ (pat : List Char), pyFind hay pat = none →
      ∀ j, pat.isPrefixOf (hay.drop j) = false := by
  induction hay with
  | nil =>
    intro pat h j
    rw [pyFind] at h
    by_cases hp : pat.isPrefixOf ([] : List Char) = true
    · rw [if_pos hp] at h; cases h
    · rw [List.drop_nil]
      exact Bool.not_eq_true _ ▸ (by simpa using hp)
  | cons c t ih =>
    intro pat h j
    rw [pyFind] at h
    by_cases hp : pat.isPrefixOf (c :: t) = true
    · rw [if_pos hp] at h; cases h
    · rw [if_neg hp] at h
      have ht : pyFind t pat = none := by
        rcases hh : pyFind t pat with _ | k
        · rfl
        · rw [hh] at h; cases h
      cases j with
      | zero => exact Bool.not_eq_true _ ▸ (by simpa using hp)
      | succ j' => exact ih pat ht j'

end ErrorDigest

/-- C7 counterexample: with two traceback markers in the kept stderr text,
the code's digest starts at the FIRST occurrence (it keeps everything),
while the claim's last-occurrence digest starts at the second marker. -/
theorem claim_C7_counterexample :
    python_error_digest
        "Traceback (most recent call last):\nA\nTraceback (most recent call last):\nB\nx\ny"
      = "Traceback (most recent call last):\nA\nTraceback (most recent call last):\nB"
    ∧ spec_error_digest_last
        "Traceback (most recent call last):\nA\nTraceback (most recent call last):\nB\nx\ny"
      = "Traceback (most recent call last):\nB"
    ∧ ("Traceback (most recent call last):\nA\nTraceback (most recent call last):\nB" : String)
      ≠ "Traceback (most recent call last):\nB" := by
  refine ⟨by decide, by decide, by decide⟩

/-- C7 (amended): after dropping the last two lines of stderr, the PYTHON
error digest is the suffix beginning at the FIRST occurrence of
`Traceback (most recent call last):` (no earlier position carries the
marker), or the whole remaining text when the marker is absent. -/
theorem claim_C7_amended (stderr : String) :
    (∀ i, pyFind (pyJoinDropLastTwo stderr).data pythonTracebackMarker.data = some i →
      pythonTracebackMarker.data.isPrefixOf ((pyJoinDropLastTwo stderr).data.drop i) = true
      ∧ (∀ j < i,
          pythonTracebackMarker.data.isPrefixOf ((pyJoinDropLastTwo stderr).data.drop j) = false)
      ∧ python_error_digest stderr = String.mk ((pyJoinDropLastTwo stderr).data.drop i))
    ∧ (pyFind (pyJoinDropLastTwo stderr).data pythonTracebackMarker.data = none →
      (∀ j, pythonTracebackMarker.data.isPrefixOf ((pyJoinDropLastTwo stderr).data.drop j) = false)
      ∧ python_error_digest stderr = pyJoinDropLastTwo stderr) := by
  constructor
  · intro i h
    obtain ⟨h1, h2⟩ := pyFind_some_spec _ _ _ h
    refine ⟨h1, h2, ?_⟩
    rw [python_error_digest]
    rw [h]
  · intro h
    refine ⟨pyFind_none_spec _ _ h, ?_⟩
    rw [python_error_digest]
    rw [h]

/-- Witness for the amended C7 at a concrete instance: no marker in the kept
text, so the digest is the whole remainder. -/
theorem claim_C7_amended_witness :
    python_error_digest "boom\nx\ny" = pyJoinDropLastTwo "boom\nx\ny" :=
  ((claim_C7_amended "boom\nx\ny").2 (by decide)).2

section Prepare

/-- The `Language` enumeration from `custom_types.py`. -/
inductive Language where
  | PYTHON
  | CPLUSPLUS
  | AQAASM
deriving DecidableEq, Repr

/-- Mutable fields of a `SourceCode` object (`source_code.py`) relevant to
preparation; `run_args = none` is Python's `None` sentinel. -/
structure SourceCodeState where
  code : String
  language : Language
  run_args : Option (List String)
  aqaasm_inputs : List String
  aqaasm_outputs : List String
  python_ignore_prompts : Bool
  box_path : Option String
  file_name : String
deriving DecidableEq

/-- Filesystem and subprocess actions performed by `prepare_if_needed`. -/
inductive PrepEffect where
  | touch (path : String)
  | writeFile (path content : String)
  | compileCpp (flags : List String) (exePath srcPath : String)
deriving DecidableEq

/-- External inputs to `prepare_if_needed`: configuration constants and the
stderr the C++ compiler would produce for this source. -/
structure PrepEnv where
  python_path : String
  cpp_compile_flags : String
  aqaasm_source : String
  cpp_compiler_stderr : String

/-- Python `str.split()` with no separator: split on whitespace runs,
discarding empty fields. -/
def pySplitWs (s : String) : List String :=
  (s.split (fun c => pyIsSpace c)).filter (fun t => t ≠ "")

/-- Python `os.path.join` for the two-argument calls in `source_code.py`. -/
def os_path_join (a b : String) : String :=
  if b.startsWith "/" then b
  else if a = "" ∨ a.endsWith "/" then a ++ b
  else a ++ "/" ++ b

/-- The Python-prompt-neutralising prefix from `SourceCode.prepare_if_needed`. -/
def promptPrefix : String :=
  "TOPYC_INPUT = input; input = lambda _=0: TOPYC_INPUT()\n"

/-- `SourceCode.prepare_if_needed` (`source_code.py`): fast-return when
`run_args` is already set (canned message when it is the empty-sequence
compile-failure sentinel); otherwise write the source into the box and set
`run_args` per language, returning compiler stderr on a failed C++ compile.
Accessing an unset `box_path` raises. -/
def prepare_if_needed (env : PrepEnv) (st : SourceCodeState) :
    Except String (SourceCodeState × String × List PrepEffect) :=
  match st.run_args with
  | some ra =>
    if ra = [] then .ok (st, "See error details in the first testcase.", [])
    else .ok (st, "", [])
  | none =>
    match st.box_path with
    | none => .error "Box path has not yet been set"
    | some bp =>
      match st.language with
      | .PYTHON =>
        let code' :=
          if st.python_ignore_prompts then promptPrefix ++ st.code else st.code
        let code_path := os_path_join bp (st.file_name ++ ".py")
        .ok ({ st with code := code',
                       run_args := some [env.python_path, st.file_name ++ ".py"] },
             "",
             [.touch code_path, .writeFile code_path code'])
      | .CPLUSPLUS =>
        let code_path := os_path_join bp (st.file_name ++ ".cpp")
        let exe_path := os_path_join bp st.file_name
        let effects := [PrepEffect.touch code_path, .writeFile code_path st.code,
                        .compileCpp (pySplitWs env.cpp_compile_flags) exe_path code_path]
        if env.cpp_compiler_stderr ≠ "" then
          .ok ({ st with run_args := some [] }, env.cpp_compiler_stderr, effects)
        else
          .ok ({ st with run_args := some [st.file_name] }, "", effects)
      | .AQAASM =>
        let code_path := os_path_join bp (st.file_name ++ ".aqaasm")
        let interpreter_path := os_path_join bp "aqaasm.py"
        let aqaArgs := [env.python_path, "aqaasm.py", st.file_name ++ ".aqaasm", "-i"]
          ++ st.aqaasm_inputs ++ ["-o"] ++ st.aqaasm_outputs
        .ok ({ st with run_args := some aqaArgs },
             "",
             [.touch code_path, .writeFile code_path st.code,
              .touch interpreter_path, .writeFile interpreter_path env.aqaasm_source])

lemma prepare_noop (env : PrepEnv) (st : SourceCodeState) (ra : List String)
    (h : st.run_args = some ra) :
    prepare_if_needed env st =
      .ok (st, (if ra = [] then "See error details in the first testcase." else ""), []) := by
  rw [prepare_if_needed, h]
  by_cases hra : ra = [] <;> simp [hra]

lemma prepare_sets_run_args (env : PrepEnv) (st st1 : SourceCodeState)
    (m : String) (e : List PrepEffect)
    (h : prepare_if_needed env st = .ok (st1, m, e)) :
    ∃ ra, st1.run_args = some ra := by
  rcases hra : st.run_args with _ | ra
  · rcases hbp : st.box_path with _ | bp
    · simp [prepare_if_needed, hra, hbp] at h
    · rcases hl : st.language with _ | _ | _
      · simp only [prepare_if_needed, hra, hbp, hl, Except.ok.injEq, Prod.mk.injEq] at h
        obtain ⟨h1, -, -⟩ := h
        exact ⟨_, by rw [← h1]⟩
      · by_cases hc : env.cpp_compiler_stderr = ""
        · simp only [prepare_if_needed, hra, hbp, hl, hc, ne_eq, not_true_eq_false,
            if_false, Except.ok.injEq, Prod.mk.injEq] at h
          obtain ⟨h1, -, -⟩ := h
          exact ⟨_, by rw [← h1]⟩
        · simp only [prepare_if_needed, hra, hbp, hl, ne_eq, hc, not_false_eq_true,
            if_true, Except.ok.injEq, Prod.mk.injEq] at h
          obtain ⟨h1, -, -⟩ := h
          exact ⟨_, by rw [← h1]⟩
      · simp only [prepare_if_needed, hra, hbp, hl, Except.ok.injEq, Prod.mk.injEq] at h
        obtain ⟨h1, -, -⟩ := h
        exact ⟨_, by rw [← h1]⟩
  · have hp := prepare_noop env st ra hra
    rw [hp] at h
    obtain ⟨h1, -, -⟩ := by simpa using h
    exact ⟨ra, by rw [← h1, hra]⟩

end Prepare

/-- C9: once `run_args` is non-null, `prepare_if_needed` leaves the whole
object unchanged and performs no filesystem or compiler action, returning
the canned message "See error details in the first testcase." when
`run_args` is the empty sequence and the empty string otherwise; hence a
second consecutive `prepare` call returns the state of the first unchanged
(in particular the same `run_args`). -/
theorem claim_C9 (env : PrepEnv) (st : SourceCodeState) :
    (∀ ra, st.run_args = some ra →
      prepare_if_needed env st =
        .ok (st, (if ra = [] then "See error details in the first testcase." else ""), []))
    ∧ (∀ st1 m1 e1, prepare_if_needed env st = .ok (st1, m1, e1) →
        prepare_if_needed env st1 =
          .ok (st1,
            (if st1.run_args = some ([] : List String)
              then "See error details in the first testcase." else ""), [])) := by
  constructor
  · intro ra h
    exact prepare_noop env st ra h
  · intro st1 m1 e1 h
    obtain ⟨ra1, hra1⟩ := prepare_sets_run_args env st st1 m1 e1 h
    rw [prepare_noop env st1 ra1 hra1, hra1]
    by_cases he : ra1 = [] <;> simp [he]

/-- Witness for C9 at a concrete instance: a prepared state with non-empty
`run_args` is returned unchanged with an empty message. -/
theorem claim_C9_witness :
    prepare_if_needed ⟨"", "", "", ""⟩
        ⟨"print(1)", Language.PYTHON, some ["python3", "code.py"], [], [], false,
          some "/box", "code"⟩
      = .ok (⟨"print(1)", Language.PYTHON, some ["python3", "code.py"], [], [], false,
          some "/box", "code"⟩, "", []) := by
  have h := (claim_C9 ⟨"", "", "", ""⟩
    ⟨"print(1)", Language.PYTHON, some ["python3", "code.py"], [], [], false,
      some "/box", "code"⟩).1 ["python3", "code.py"] rfl
  simpa using h

section AQAInterpreter

/-- `NUM_REGISTERS` from `aqaasm.py`. -/
def NUM_REGISTERS : ℕ := 13

/-- `NUM_MEM` from `aqaasm.py`. -/
def NUM_MEM : ℕ := 1000

/-- A Python value held in a register, a memory cell, the comparison latch,
or produced by `get_operand`: an integer, or Python `None` (`none`). -/
abbrev Val := Option ℤ

/-- Python exceptions arising inside the AQA interpreter; constructors whose
message embeds `self.cur_line_num + 1` carry that line number, and the
run loop's blanket re-raise is `errorAtLine` with its cause chained. -/
inductive AQAErr where
  | invalidMemoryAddress (line : ℕ)
  | memoryAddressOutOfRange (line : ℕ)
  | invalidRegisterNumber (line : ℕ)
  | registerOutOfRange (line : ℕ)
  | invalidOperand (line : ℕ)
  | cmpNotSet (line : ℕ)
  | unknownInstruction (line : ℕ)
  | invalidBranch (line : ℕ)
  | errorAtLine (line : ℕ) (cause : AQAErr)
  | typeError
  | valueError
  | indexError
  | attributeError
deriving DecidableEq, Repr

/-- The mutable fields of `AQAAssemblyInterpreter` (`aqaasm.py`). -/
structure AQAState where
  registers : List Val
  memory : List Val
  cmp_left : Val
  cmp_right : Val
  cur_line_num : ℕ
deriving DecidableEq

/-- The `__init__` state: 13 integer registers and 1000 cells, all zero. -/
def initAQAState : AQAState :=
  { registers := List.replicate NUM_REGISTERS (some 0)
    memory := List.replicate NUM_MEM (some 0)
    cmp_left := none
    cmp_right := none
    cur_line_num := 0 }

/-- Digit-sequence parsing for Python `int(str)`: ASCII digits with single
underscores allowed between digits. -/
def pyIntCore : List Char → Option ℕ
  | [] => none
  | c :: rest =>
    if c.isDigit then pyIntCoreGo (c.toNat - '0'.toNat) rest else none
where
  pyIntCoreGo (acc : ℕ) : List Char → Option ℕ
    | [] => some acc
    | '_' :: [] => none
    | '_' :: d :: rest =>
      if d.isDigit then pyIntCoreGo (acc * 10 + (d.toNat - '0'.toNat)) rest else none
    | d :: rest =>
      if d.isDigit then pyIntCoreGo (acc * 10 + (d.toNat - '0'.toNat)) rest else none

/-- Python `str.strip()` over a character list. -/
def pyStrip (l : List Char) : List Char :=
  ((l.dropWhile fun c => pyIsSpace c).reverse.dropWhile fun c => pyIsSpace c).reverse

/-- Python `int(str)` over a character list: surrounding whitespace, an
optional sign, then a digit sequence; `none` models `ValueError`. -/
def pyIntL? (l : List Char) : Option ℤ :=
  match pyStrip l with
  | '+' :: rest => (pyIntCore rest).map (fun n => (n : ℤ))
  | '-' :: rest => (pyIntCore rest).map (fun n => -(n : ℤ))
  | rest => (pyIntCore rest).map (fun n => (n : ℤ))

/-- Resolve a Python list index (negative indices count from the end);
`none` models `IndexError`. -/
def pyIdx (len : ℕ) (i : ℤ) : Option ℕ :=
  if 0 ≤ i then
    if i < (len : ℤ) then some i.toNat else none
  else
    if -(len : ℤ) ≤ i then some ((len : ℤ) + i).toNat else none

/-- Python `l[i]` on a list. -/
def pyGet {α : Type} (l : List α) (i : ℤ) : Option α :=
  (pyIdx l.length i).bind fun n => l.get? n

/-- Python `l[i] = v` on a list. -/
def pySet {α : Type} (l : List α) (i : ℤ) (v : α) : Option (List α) :=
  (pyIdx l.length i).map fun n => l.set n v

/-- `AQAAssemblyInterpreter._get_memory_number`: `int(mem)`, rejecting
addresses `≥ NUM_MEM` (negative addresses pass through). -/
def get_memory_number (st : AQAState) (mem : String) : Except AQAErr ℤ :=
  match pyIntL? mem.data with
  | none => .error (.invalidMemoryAddress (st.cur_line_num + 1))
  | some n =>
    if n ≥ (NUM_MEM : ℤ) then .error (.memoryAddressOutOfRange (st.cur_line_num + 1))
    else .ok n

/-- `AQAAssemblyInterpreter.set_memory`. -/
def set_memory (st : AQAState) (mem : String) (v : Val) : Except AQAErr AQAState :=
  match get_memory_number st mem with
  | .error e => .error e
  | .ok n =>
    match pySet st.memory n v with
    | none => .error .indexError
    | some mem' => .ok { st with memory := mem' }

/-- `AQAAssemblyInterpreter.get_memory`. -/
def get_memory (st : AQAState) (mem : String) : Except AQAErr Val :=
  match get_memory_number st mem with
  | .error e => .error e
  | .ok n =>
    match pyGet st.memory n with
    | none => .error .indexError
    | some v => .ok v

/-- `AQAAssemblyInterpreter._get_register_number`: `int(reg[1:])`, rejecting
numbers `≥ NUM_REGISTERS` (negative numbers pass through). -/
def get_register_number (st : AQAState) (reg : String) : Except AQAErr ℤ :=
  match pyIntL? (reg.data.drop 1) with
  | none => .error (.invalidRegisterNumber (st.cur_line_num + 1))
  | some n =>
    if n ≥ (NUM_REGISTERS : ℤ) then .error (.registerOutOfRange (st.cur_line_num + 1))
    else .ok n

/-- `AQAAssemblyInterpreter.set_register`. -/
def set_register (st : AQAState) (reg : String) (v : Val) : Except AQAErr AQAState :=
  match get_register_number st reg with
  | .error e => .error e
  | .ok n =>
    match pySet st.registers n v with
    | none => .error .indexError
    | some regs => .ok { st with registers := regs }

/-- `AQAAssemblyInterpreter.get_register`. -/
def get_register (st : AQAState) (reg : String) : Except AQAErr Val :=
  match get_register_number st reg with
  | .error e => .error e
  | .ok n =>
    match pyGet st.registers n with
    | none => .error .indexError
    | some v => .ok v

/-- `AQAAssemblyInterpreter.get_operand`: register for an `R` prefix,
parsed immediate for a `#` prefix, and Python's implicit `None` fall-through
for anything else; `operand[0]` on an empty string is an `IndexError`. -/
def get_operand (st : AQAState) (operand : String) : Except AQAErr Val :=
  match operand.data with
  | [] => .error .indexError
  | c :: _ =>
    if c = 'R' then get_register st operand
    else if c = '#' then
      match pyIntL? (operand.data.drop 1) with
      | none => .error (.invalidOperand (st.cur_line_num + 1))
      | some i => .ok (some i)
    else .ok none

/-- `AQAAssemblyInterpreter._ldr`. -/
def exec_ldr (st : AQAState) (reg mem : String) : Except AQAErr AQAState :=
  match get_memory st mem with
  | .error e => .error e
  | .ok v => set_register st reg v

/-- `AQAAssemblyInterpreter._str`. -/
def exec_str (st : AQAState) (reg mem : String) : Except AQAErr AQAState :=
  match get_register st reg with
  | .error e => .error e
  | .ok v => set_memory st mem v

/-- `AQAAssemblyInterpreter._add`: `(Rs + op) % 256` (adding `None` is a
`TypeError`). -/
def exec_add (st : AQAState) (reg reg2 operand : String) : Except AQAErr AQAState :=
  match get_register st reg2 with
  | .error e => .error e
  | .ok v2 =>
    match get_operand st operand with
    | .error e => .error e
    | .ok v =>
      match v2, v with
      | some x2, some x => set_register st reg (some ((x2 + x) % 256))
      | _, _ => .error .typeError

/-- `AQAAssemblyInterpreter._sub`: `(Rs - op + 256) % 256`. -/
def exec_sub (st : AQAState) (reg reg2 operand : String) : Except AQAErr AQAState :=
  match get_register st reg2 with
  | .error e => .error e
  | .ok v2 =>
    match get_operand st operand with
    | .error e => .error e
    | .ok v =>
      match v2, v with
      | some x2, some x => set_register st reg (some ((x2 - x + 256) % 256))
      | _, _ => .error .typeError

/-- `AQAAssemblyInterpreter._mov`: stores the operand value verbatim
(including the `None` fall-through). -/
def exec_mov (st : AQAState) (reg operand : String) : Except AQAErr AQAState :=
  match get_operand st operand with
  | .error e => .error e
  | .ok v => set_register st reg v

/-- `AQAAssemblyInterpreter._cmp`: latch the two values verbatim. -/
def exec_cmp (st : AQAState) (reg operand : String) : Except AQAErr AQAState :=
  match get_register st reg with
  | .error e => .error e
  | .ok l =>
    match get_operand st operand with
    | .error e => .error e
    | .ok r => .ok { st with cmp_left := l, cmp_right := r }

/-- `AQAAssemblyInterpreter._and`: bitwise and, no reduction mod 256. -/
def exec_and (st : AQAState) (reg reg2 operand : String) : Except AQAErr AQAState :=
  match get_register st reg2 with
  | .error e => .error e
  | .ok v2 =>
    match get_operand st operand with
    | .error e => .error e
    | .ok v =>
      match v2, v with
      | some x2, some x => set_register st reg (some (Int.land x2 x))
      | _, _ => .error .typeError

/-- `AQAAssemblyInterpreter._orr`: bitwise or, no reduction mod 256. -/
def exec_orr (st : AQAState) (reg reg2 operand : String) : Except AQAErr AQAState :=
  match get_register st reg2 with
  | .error e => .error e
  | .ok v2 =>
    match get_operand st operand with
    | .error e => .error e
    | .ok v =>
      match v2, v with
      | some x2, some x => set_register st reg (some (Int.lor x2 x))
      | _, _ => .error .typeError

/-- `AQAAssemblyInterpreter._eor`: bitwise xor, no reduction mod 256. -/
def exec_eor (st : AQAState) (reg reg2 operand : String) : Except AQAErr AQAState :=
  match get_register st reg2 with
  | .error e => .error e
  | .ok v2 =>
    match get_operand st operand with
    | .error e => .error e
    | .ok v =>
      match v2, v with
      | some x2, some x => set_register st reg (some (Int.xor x2 x))
      | _, _ => .error .typeError

/-- `AQAAssemblyInterpreter._mvn`: `(~op) % 256`, with Python `~x = -x-1`. -/
def exec_mvn (st : AQAState) (reg operand : String) : Except AQAErr AQAState :=
  match get_operand st operand with
  | .error e => .error e
  | .ok v =>
    match v with
    | some x => set_register st reg (some ((-x - 1) % 256))
    | none => .error .typeError

/-- `AQAAssemblyInterpreter._lsl`: `(Rs << op) % 256`; a negative shift
count is a `ValueError`. -/
def exec_lsl (st : AQAState) (reg reg2 operand : String) : Except AQAErr AQAState :=
  match get_register st reg2 with
  | .error e => .error e
  | .ok v2 =>
    match get_operand st operand with
    | .error e => .error e
    | .ok v =>
      match v2, v with
      | some x2, some x =>
        if x < 0 then .error .valueError
        else set_register st reg (some ((x2 * 2 ^ x.toNat) % 256))
      | _, _ => .error .typeError

/-- `AQAAssemblyInterpreter._lsr`: `Rs >> op` (Python arithmetic shift,
i.e. floor division by `2^op`), no reduction mod 256; a negative shift
count is a `ValueError`. -/
def exec_lsr (st : AQAState) (reg reg2 operand : String) : Except AQAErr AQAState :=
  match get_register st reg2 with
  | .error e => .error e
  | .ok v2 =>
    match get_operand st operand with
    | .error e => .error e
    | .ok v =>
      match v2, v with
      | some x2, some x =>
        if x < 0 then .error .valueError
        else set_register st reg (some (Int.fdiv x2 (2 ^ x.toNat)))
      | _, _ => .error .typeError

/-- The `func(*args)` dispatch inside `run_code` for the non-branch
instructions; a wrong argument count is Python's call-arity `TypeError`. -/
def execInstr (st : AQAState) (instruction : String) (args : List String) :
    Except AQAErr AQAState :=
  match instruction, args with
  | "LDR", [reg, mem] => exec_ldr st reg mem
  | "STR", [reg, mem] => exec_str st reg mem
  | "ADD", [reg, reg2, operand] => exec_add st reg reg2 operand
  | "SUB", [reg, reg2, operand] => exec_sub st reg reg2 operand
  | "MOV", [reg, operand] => exec_mov st reg operand
  | "CMP", [reg, operand] => exec_cmp st reg operand
  | "AND", [reg, reg2, operand] => exec_and st reg reg2 operand
  | "ORR", [reg, reg2, operand] => exec_orr st reg reg2 operand
  | "EOR", [reg, reg2, operand] => exec_eor st reg reg2 operand
  | "MVN", [reg, operand] => exec_mvn st reg operand
  | "LSL", [reg, reg2, operand] => exec_lsl st reg reg2 operand
  | "LSR", [reg, reg2, operand] => exec_lsr st reg reg2 operand
  | _, _ => .error .typeError

/-- The branch-condition evaluation in `run_code`: `B` is unconditional;
the conditional branches consume the latch, raising when either latched
value is Python `None` (`_eq` .. `_lt`). -/
def branchCond (st : AQAState) (instruction : String) : Except AQAErr Bool :=
  if instruction = "B" then .ok true
  else
    match st.cmp_left, st.cmp_right with
    | some l, some r =>
      if instruction = "BEQ" then .ok (decide (l = r))
      else if instruction = "BNE" then .ok (decide (l ≠ r))
      else if instruction = "BGT" then .ok (decide (l > r))
      else if instruction = "BLT" then .ok (decide (l < r))
      else .ok false
    | _, _ => .error (.cmpNotSet (st.cur_line_num + 1))

/-- The instruction names accepted by `run_code`. -/
def knownInstructions : List String :=
  ["LDR", "STR", "ADD", "SUB", "MOV", "CMP", "AND", "ORR", "EOR", "MVN",
   "LSL", "LSR", "B", "BEQ", "BNE", "BGT", "BLT", "HALT"]

/-- Python `line.split(' ', maxsplit=1)` over characters: the opcode and,
when a space occurs, the raw remainder (`None` otherwise). -/
def pySplitOnceAux : List Char → List Char → List Char × Option (List Char)
  | [], acc => (acc.reverse, none)
  | ' ' :: rest, acc => (acc.reverse, some rest)
  | c :: rest, acc => pySplitOnceAux rest (c :: acc)

/-- Python `line.split(' ', maxsplit=1)`. -/
def pySplitOnce (l : List Char) : List Char × Option (List Char) :=
  pySplitOnceAux l []

/-- Python `args_raw.split(',')` over characters (keeps empty fields). -/
def splitComma : List Char → List (List Char)
  | [] => [[]]
  | ',' :: t => [] :: splitComma t
  | c :: t =>
    match splitComma t with
    | [] => [[c]]
    | h :: r => (c :: h) :: r

/-- Python `line.endswith(':')`. -/
def endsWithColon (l : List Char) : Bool :=
  match l.getLast? with
  | some c => c = ':'
  | none => false

/-- The label pass of `run_code`: a line ending in `:` maps its text (minus
the colon) to the following line number; later duplicates override. -/
def scanBranches (code_lines : List String) : List (String × ℕ) :=
  code_lines.enum.filterMap fun p =>
    if endsWithColon p.2.data then some (String.mk p.2.data.dropLast, p.1 + 1) else none

/-- Python dict lookup over an insertion-ordered association list: the last
binding for a key wins. -/
def dictLookupLast (l : List (String × ℕ)) (k : String) : Option ℕ :=
  l.reverse.lookup k

/-- Terminal outcomes of the `run_code` fetch/dispatch loop. -/
inductive RunOutcome where
  | halted (st : AQAState)
  | failed (e : AQAErr)
  | fuelOut
deriving DecidableEq

/-- The `while True` fetch/dispatch loop of `run_code` (`aqaasm.py`), with
explicit fuel: running off the end of the program is an `IndexError`; blank
lines and lines containing `:` are skipped; unknown opcodes, untaken and
taken branches, `HALT`, and the wrapped instruction dispatch follow the
source; any exception from an instruction body is re-raised as
`errorAtLine`. -/
def runLoop (code_lines : List String) (branches : List (String × ℕ)) :
    ℕ → AQAState → RunOutcome
  | 0, _ => .fuelOut
  | fuel + 1, st =>
    match code_lines.get? st.cur_line_num with
    | none => .failed .indexError
    | some cur_line =>
      if cur_line = "" ∨ cur_line.data.contains ':' then
        runLoop code_lines branches fuel { st with cur_line_num := st.cur_line_num + 1 }
      else
        let sp := pySplitOnce cur_line.data
        let instruction := String.mk sp.1
        if ¬ (knownInstructions.contains instruction) then
          .failed (.unknownInstruction (st.cur_line_num + 1))
        else if instruction = "HALT" then .halted st
        else if instruction.data.head? = some 'B' then
          match branchCond st instruction with
          | .error e => .failed e
          | .ok true =>
            match sp.2 with
            | none => .failed (.invalidBranch (st.cur_line_num + 1))
            | some lbl =>
              match dictLookupLast branches (String.mk lbl) with
              | none => .failed (.invalidBranch (st.cur_line_num + 1))
              | some target =>
                runLoop code_lines branches fuel { st with cur_line_num := target }
          | .ok false =>
            runLoop code_lines branches fuel { st with cur_line_num := st.cur_line_num + 1 }
        else
          match sp.2 with
          | none => .failed .attributeError
          | some ar =>
            let args := (splitComma ar).map fun a => String.mk (pyStrip a)
            match execInstr st instruction args with
            | .error e => .failed (.errorAtLine (st.cur_line_num + 1) e)
            | .ok st' =>
              runLoop code_lines branches fuel { st' with cur_line_num := st'.cur_line_num + 1 }

/-- `AQAAssemblyInterpreter.run_code`: split into lines, strip each, scan
labels, reset the program counter, and run the dispatch loop. -/
def run_code (st0 : AQAState) (code : String) (fuel : ℕ) : RunOutcome :=
  let code_lines := (pySplitlinesL code.data).map fun l => String.mk (pyStrip l)
  let branches := scanBranches code_lines
  runLoop code_lines branches fuel { st0 with cur_line_num := 0 }

/-- A register of the final state of a successful run. -/
def finalRegister (o : RunOutcome) (n : ℕ) : Option Val :=
  match o with
  | .halted st => st.registers.get? n
  | _ => none

/-- Whether a run terminated successfully (reached `HALT`). -/
def runHalts (o : RunOutcome) : Bool :=
  match o with
  | .halted _ => true
  | _ => false

end AQAInterpreter

/-- C3 counterexample: from the initial interpreter state, the bitwise
instruction `ORR R1, R0, #256` executes without error and writes 256 — a
value outside `[0, 256)` — into register 1 (`_orr` does not reduce mod
256). -/
theorem claim_C3_counterexample :
    finalRegister (run_code initAQAState "ORR R1, R0, #256\nHALT" 10) 1 = some (some 256)
    ∧ ¬((256 : ℤ) < 256) := by
  exact ⟨by decide, by decide⟩

/-- C4 counterexample: `MOV R2, R-1` uses register number −1 (outside
`[0, 13)`) yet runs to HALT without error (Python's negative indexing
aliases register 12), and `MOV R0, X` uses an operand that is neither
`R<n>` nor `#<integer>` yet also proceeds to HALT, storing `None`. -/
theorem claim_C4_counterexample :
    runHalts (run_code initAQAState "MOV R2, R-1\nHALT" 10) = true
    ∧ runHalts (run_code initAQAState "MOV R0, X\nHALT" 10) = true
    ∧ finalRegister (run_code initAQAState "MOV R0, X\nHALT" 10) 0 = some none
    ∧ ¬((0 : ℤ) ≤ -1 ∧ (-1 : ℤ) < 13) := by
  refine ⟨by decide, by decide, by decide, by decide⟩

section RangeLemmas

/-- Every register of the state holds an integer in `[0, 256)`. -/
def RegsInRange (st : AQAState) : Prop :=
  ∀ v ∈ st.registers, ∃ x : ℤ, v = some x ∧ 0 ≤ x ∧ x < 256

/-- When the argument is a `#`-immediate, its parsed value is in `[0, 256)`. -/
def ImmInRange (arg : String) : Prop :=
  ∀ n : ℤ, arg.data.head? = some '#' → pyIntL? (arg.data.drop 1) = some n →
    0 ≤ n ∧ n < 256

lemma emod_256_range (a : ℤ) : 0 ≤ a % 256 ∧ a % 256 < 256 :=
  ⟨Int.emod_nonneg a (by norm_num), Int.emod_lt_of_pos a (by norm_num)⟩

lemma int_land_range {a b : ℤ} (ha : 0 ≤ a ∧ a < 256) (hb : 0 ≤ b ∧ b < 256) :
    0 ≤ Int.land a b ∧ Int.land a b < 256 := by
  obtain ⟨m, rfl⟩ := Int.eq_ofNat_of_zero_le ha.1
  obtain ⟨n, rfl⟩ := Int.eq_ofNat_of_zero_le hb.1
  have hn : n < 2 ^ 8 := by exact_mod_cast hb.2
  have : (Int.land (m : ℤ) (n : ℤ)) = ((m &&& n : ℕ) : ℤ) := rfl
  rw [this]
  have hand : m &&& n < 2 ^ 8 := Nat.and_lt_two_pow m hn
  constructor
  · exact_mod_cast Nat.zero_le _
  · exact_mod_cast hand

lemma int_lor_range {a b : ℤ} (ha : 0 ≤ a ∧ a < 256) (hb : 0 ≤ b ∧ b < 256) :
    0 ≤ Int.lor a b ∧ Int.lor a b < 256 := by
  obtain ⟨m, rfl⟩ := Int.eq_ofNat_of_zero_le ha.1
  obtain ⟨n, rfl⟩ := Int.eq_ofNat_of_zero_le hb.1
  have hm : m < 2 ^ 8 := by exact_mod_cast ha.2
  have hn : n < 2 ^ 8 := by exact_mod_cast hb.2
  have : (Int.lor (m : ℤ) (n : ℤ)) = ((m ||| n : ℕ) : ℤ) := rfl
  rw [this]
  have hor : m ||| n < 2 ^ 8 := Nat.or_lt_two_pow hm hn
  constructor
  · exact_mod_cast Nat.zero_le _
  · exact_mod_cast hor

lemma int_xor_range {a b : ℤ} (ha : 0 ≤ a ∧ a < 256) (hb : 0 ≤ b ∧ b < 256) :
    0 ≤ Int.xor a b ∧ Int.xor a b < 256 := by
  obtain ⟨m, rfl⟩ := Int.eq_ofNat_of_zero_le ha.1
  obtain ⟨n, rfl⟩ := Int.eq_ofNat_of_zero_le hb.1
  have hm : m < 2 ^ 8 := by exact_mod_cast ha.2
  have hn : n < 2 ^ 8 := by exact_mod_cast hb.2
  have : (Int.xor (m : ℤ) (n : ℤ)) = ((m ^^^ n : ℕ) : ℤ) := rfl
  rw [this]
  have hxor : m ^^^ n < 2 ^ 8 := Nat.xor_lt_two_pow hm hn
  constructor
  · exact_mod_cast Nat.zero_le _
  · exact_mod_cast hxor

lemma int_fdiv_pow_range {a : ℤ} (n : ℕ) (ha : 0 ≤ a ∧ a < 256) :
    0 ≤ Int.fdiv a (2 ^ n) ∧ Int.fdiv a (2 ^ n) < 256 := by
  have hb : (0 : ℤ) ≤ 2 ^ n := by positivity
  rw [Int.fdiv_eq_ediv _ hb]
  constructor
  · exact Int.ediv_nonneg ha.1 hb
  · calc a / 2 ^ n ≤ a := Int.ediv_le_self _ ha.1
      _ < 256 := ha.2

lemma pyGet_mem {α : Type} {l : List α} {i : ℤ} {a : α} (h : pyGet l i = some a) :
    a ∈ l := by
  rw [pyGet] at h
  rcases hidx : pyIdx l.length i with _ | n
  · rw [hidx] at h; cases h
  · rw [hidx] at h
    exact List.get?_mem h

lemma get_register_in_range {st : AQAState} {reg : String} {v : Val}
    (hst : RegsInRange st) (h : get_register st reg = .ok v) :
    ∃ x : ℤ, v = some x ∧ 0 ≤ x ∧ x < 256 := by
  unfold get_register at h
  split at h
  · cases h
  · split at h
    · cases h
    · rename_i w hg
      cases h
      exact hst _ (pyGet_mem hg)

lemma get_operand_in_range {st : AQAState} {arg : String} {x : ℤ}
    (hst : RegsInRange st) (him : ImmInRange arg)
    (h : get_operand st arg = .ok (some x)) : 0 ≤ x ∧ x < 256 := by
  unfold get_operand at h
  split at h
  · cases h
  · rename_i c rest harg
    split at h
    · obtain ⟨y, hy, hr⟩ := get_register_in_range hst h
      cases hy
      exact hr
    · split at h
      · rename_i hR hH
        split at h
        · cases h
        · rename_i n hint
          cases h
          exact him _ (by rw [harg]; exact congrArg some hH) hint
      · cases h

lemma get?_set_changed {α : Type} {l : List α} {n i : ℕ} {v : α}
    (h : (l.set n v).get? i ≠ l.get? i) : (l.set n v).get? i = some v := by
  by_cases hne : n = i
  · subst hne
    by_cases hlt : n < l.length
    · exact List.get?_set_eq_of_lt v hlt
    · rw [List.set_eq_of_length_le (Nat.le_of_not_lt hlt)] at h ⊢
      exact absurd rfl h
  · rw [List.get?_set_ne v l hne] at h
    exact absurd rfl h

lemma set_register_shape {st st' : AQAState} {reg : String} {v : Val}
    (h : set_register st reg v = .ok st') :
    ∃ n : ℕ, st' = { st with registers := st.registers.set n v } := by
  unfold set_register at h
  split at h
  · cases h
  · rename_i m hm
    split at h
    · cases h
    · rename_i regs hs
      cases h
      rw [pySet] at hs
      rcases hidx : pyIdx st.registers.length m with _ | k
      · rw [hidx] at hs; cases hs
      · rw [hidx] at hs
        cases hs
        exact ⟨k, rfl⟩

lemma reg_write_range {st st' : AQAState} {reg : String} {v : ℤ}
    (hset : set_register st reg (some v) = .ok st') (hv : 0 ≤ v ∧ v < 256) :
    ∀ i, st'.registers.get? i ≠ st.registers.get? i →
      ∃ x : ℤ, st'.registers.get? i = some (some x) ∧ 0 ≤ x ∧ x < 256 := by
  obtain ⟨n, rfl⟩ := set_register_shape hset
  intro i hi
  exact ⟨v, get?_set_changed hi, hv⟩

end RangeLemmas

/-- C3 (amended): register writes by ADD, SUB, MVN and LSL always land in
`[0, 256)` (they reduce mod 256); register writes by AND, ORR, EOR and LSR
land in `[0, 256)` provided every register holds a value in `[0, 256)` and
every immediate operand is in `[0, 256)` — unconditionally they can leave
the range (see the counterexample), since `_and`/`_orr`/`_eor`/`_lsr` do
not reduce mod 256. -/
theorem claim_C3_amended :
    (∀ instr ∈ (["ADD", "SUB", "MVN", "LSL"] : List String),
      ∀ st args st', execInstr st instr args = .ok st' →
        ∀ i, st'.registers.get? i ≠ st.registers.get? i →
          ∃ x : ℤ, st'.registers.get? i = some (some x) ∧ 0 ≤ x ∧ x < 256)
    ∧ (∀ instr ∈ (["AND", "ORR", "EOR", "LSR"] : List String),
      ∀ st args st', RegsInRange st → (∀ a ∈ args, ImmInRange a) →
        execInstr st instr args = .ok st' →
        ∀ i, st'.registers.get? i ≠ st.registers.get? i →
          ∃ x : ℤ, st'.registers.get? i = some (some x) ∧ 0 ≤ x ∧ x < 256) := by
  constructor
  · intro instr hmem st args st' h i hi
    have hcases : instr = "ADD" ∨ instr = "SUB" ∨ instr = "MVN" ∨ instr = "LSL" := by
      simpa using hmem
    rcases hcases with rfl | rfl | rfl | rfl
    · rcases args with _ | ⟨a1, _ | ⟨a2, _ | ⟨a3, _ | ⟨a4, rest⟩⟩⟩⟩
      · exact Except.noConfusion h
      · exact Except.noConfusion h
      · exact Except.noConfusion h
      · have h' : exec_add st a1 a2 a3 = .ok st' := h
        unfold exec_add at h'
        split at h'
        · exact Except.noConfusion h'
        · split at h'
          · exact Except.noConfusion h'
          · split at h'
            · exact reg_write_range h' (emod_256_range _) i hi
            · exact Except.noConfusion h'
      · exact Except.noConfusion h
    · rcases args with _ | ⟨a1, _ | ⟨a2, _ | ⟨a3, _ | ⟨a4, rest⟩⟩⟩⟩
      · exact Except.noConfusion h
      · exact Except.noConfusion h
      · exact Except.noConfusion h
      · have h' : exec_sub st a1 a2 a3 = .ok st' := h
        unfold exec_sub at h'
        split at h'
        · exact Except.noConfusion h'
        · split at h'
          · exact Except.noConfusion h'
          · split at h'
            · exact reg_write_range h' (emod_256_range _) i hi
            · exact Except.noConfusion h'
      · exact Except.noConfusion h
    · rcases args with _ | ⟨a1, _ | ⟨a2, _ | ⟨a3, rest⟩⟩⟩
      · exact Except.noConfusion h
      · exact Except.noConfusion h
      · have h' : exec_mvn st a1 a2 = .ok st' := h
        unfold exec_mvn at h'
        split at h'
        · exact Except.noConfusion h'
        · split at h'
          · exact reg_write_range h' (emod_256_range _) i hi
          · exact Except.noConfusion h'
      · exact Except.noConfusion h
    · rcases args with _ | ⟨a1, _ | ⟨a2, _ | ⟨a3, _ | ⟨a4, rest⟩⟩⟩⟩
      · exact Except.noConfusion h
      · exact Except.noConfusion h
      · exact Except.noConfusion h
      · have h' : exec_lsl st a1 a2 a3 = .ok st' := h
        unfold exec_lsl at h'
        split at h'
        · exact Except.noConfusion h'
        · split at h'
          · exact Except.noConfusion h'
          · split at h'
            · split at h'
              · exact Except.noConfusion h'
              · exact reg_write_range h' (emod_256_range _) i hi
            · exact Except.noConfusion h'
      · exact Except.noConfusion h
  · intro instr hmem st args st' hst him h i hi
    have hcases : instr = "AND" ∨ instr = "ORR" ∨ instr = "EOR" ∨ instr = "LSR" := by
      simpa using hmem
    rcases hcases with rfl | rfl | rfl | rfl
    · rcases args with _ | ⟨a1, _ | ⟨a2, _ | ⟨a3, _ | ⟨a4, rest⟩⟩⟩⟩
      · exact Except.noConfusion h
      · exact Except.noConfusion h
      · exact Except.noConfusion h
      · have h' : exec_and st a1 a2 a3 = .ok st' := h
        unfold exec_and at h'
        split at h'
        · exact Except.noConfusion h'
        · rename_i v2 hg2
          split at h'
          · exact Except.noConfusion h'
          · rename_i v hop
            split at h'
            · obtain ⟨y, hy, hr2⟩ := get_register_in_range hst hg2
              cases hy
              have hx := get_operand_in_range hst (him a3 (by simp)) hop
              exact reg_write_range h' (int_land_range hr2 hx) i hi
            · exact Except.noConfusion h'
      · exact Except.noConfusion h
    · rcases args with _ | ⟨a1, _ | ⟨a2, _ | ⟨a3, _ | ⟨a4, rest⟩⟩⟩⟩
      · exact Except.noConfusion h
      · exact Except.noConfusion h
      · exact Except.noConfusion h
      · have h' : exec_orr st a1 a2 a3 = .ok st' := h
        unfold exec_orr at h'
        split at h'
        · exact Except.noConfusion h'
        · rename_i v2 hg2
          split at h'
          · exact Except.noConfusion h'
          · rename_i v hop
            split at h'
            · obtain ⟨y, hy, hr2⟩ := get_register_in_range hst hg2
              cases hy
              have hx := get_operand_in_range hst (him a3 (by simp)) hop
              exact reg_write_range h' (int_lor_range hr2 hx) i hi
            · exact Except.noConfusion h'
      · exact Except.noConfusion h
    · rcases args with _ | ⟨a1, _ | ⟨a2, _ | ⟨a3, _ | ⟨a4, rest⟩⟩⟩⟩
      · exact Except.noConfusion h
      · exact Except.noConfusion h
      · exact Except.noConfusion h
      · have h' : exec_eor st a1 a2 a3 = .ok st' := h
        unfold exec_eor at h'
        split at h'
        · exact Except.noConfusion h'
        · rename_i v2 hg2
          split at h'
          · exact Except.noConfusion h'
          · rename_i v hop
            split at h'
            · obtain ⟨y, hy, hr2⟩ := get_register_in_range hst hg2
              cases hy
              have hx := get_operand_in_range hst (him a3 (by simp)) hop
              exact reg_write_range h' (int_xor_range hr2 hx) i hi
            · exact Except.noConfusion h'
      · exact Except.noConfusion h
    · rcases args with _ | ⟨a1, _ | ⟨a2, _ | ⟨a3, _ | ⟨a4, rest⟩⟩⟩⟩
      · exact Except.noConfusion h
      · exact Except.noConfusion h
      · exact Except.noConfusion h
      · have h' : exec_lsr st a1 a2 a3 = .ok st' := h
        unfold exec_lsr at h'
        split at h'
        · exact Except.noConfusion h'
        · rename_i v2 hg2
          split at h'
          · exact Except.noConfusion h'
          · rename_i v hop
            split at h'
            · rename_i x2 x
              split at h'
              · exact Except.noConfusion h'
              · obtain ⟨y, hy, hr2⟩ := get_register_in_range hst hg2
                cases hy
                exact reg_write_range h' (int_fdiv_pow_range x.toNat hr2) i hi
            · exact Except.noConfusion h'
      · exact Except.noConfusion h

/-- Witness for the amended C3 at a concrete instance: `ADD R0, R0, #300`
from the initial state writes `300 % 256 = 44 ∈ [0, 256)` into register 0. -/
theorem claim_C3_amended_witness :
    ∃ x : ℤ,
      (({ initAQAState with
            registers := (List.replicate NUM_REGISTERS ((some 0 : Val))).set 0 (some 44) }
          : AQAState).registers.get? 0) = some (some x) ∧ 0 ≤ x ∧ x < 256 :=
  claim_C3_amended.1 "ADD" (by decide) initAQAState ["R0", "R0", "#300"]
    { initAQAState with
        registers := (List.replicate NUM_REGISTERS ((some 0 : Val))).set 0 (some 44) }
    (by rfl) 0 (by decide)

section C4Lemmas

lemma get_register_number_invalid (st : AQAState) (reg : String)
    (h : pyIntL? (reg.data.drop 1) = none) :
    get_register_number st reg = .error (.invalidRegisterNumber (st.cur_line_num + 1)) := by
  simp only [get_register_number, h]

lemma get_register_number_out_of_range (st : AQAState) (reg : String) (n : ℤ)
    (hint : pyIntL? (reg.data.drop 1) = some n) (hge : (NUM_REGISTERS : ℤ) ≤ n) :
    get_register_number st reg = .error (.registerOutOfRange (st.cur_line_num + 1)) := by
  simp only [get_register_number, hint]
  rw [if_pos hge]

lemma set_register_neg_alias (st : AQAState) (reg : String) (n : ℤ) (v : Val)
    (hint : pyIntL? (reg.data.drop 1) = some n) (hneg : n < 0)
    (hge : -(NUM_REGISTERS : ℤ) ≤ n) (hlen : st.registers.length = NUM_REGISTERS) :
    set_register st reg v =
      .ok { st with registers := st.registers.set ((NUM_REGISTERS : ℤ) + n).toNat v } := by
  have h13 : ¬(n ≥ (NUM_REGISTERS : ℤ)) := by
    simp only [NUM_REGISTERS] at *
    omega
  simp only [set_register, get_register_number, hint]
  rw [if_neg h13]
  simp only [pySet, pyIdx, hlen]
  rw [if_neg (not_le.mpr hneg), if_pos hge]
  rfl

lemma set_register_neg_index_error (st : AQAState) (reg : String) (n : ℤ) (v : Val)
    (hint : pyIntL? (reg.data.drop 1) = some n) (hlt : n < -(NUM_REGISTERS : ℤ))
    (hlen : st.registers.length = NUM_REGISTERS) :
    set_register st reg v = .error .indexError := by
  have h13 : ¬(n ≥ (NUM_REGISTERS : ℤ)) := by
    simp only [NUM_REGISTERS] at *
    omega
  have hneg : ¬(0 ≤ n) := by
    simp only [NUM_REGISTERS] at hlt
    omega
  simp only [set_register, get_register_number, hint]
  rw [if_neg h13]
  simp only [pySet, pyIdx, hlen]
  rw [if_neg hneg, if_neg (not_le.mpr hlt)]
  rfl

lemma get_memory_number_invalid (st : AQAState) (mem : String)
    (h : pyIntL? mem.data = none) :
    get_memory_number st mem = .error (.invalidMemoryAddress (st.cur_line_num + 1)) := by
  simp only [get_memory_number, h]

lemma get_memory_number_out_of_range (st : AQAState) (mem : String) (n : ℤ)
    (hint : pyIntL? mem.data = some n) (hge : (NUM_MEM : ℤ) ≤ n) :
    get_memory_number st mem = .error (.memoryAddressOutOfRange (st.cur_line_num + 1)) := by
  simp only [get_memory_number, hint]
  rw [if_pos hge]

lemma set_memory_neg_alias (st : AQAState) (mem : String) (n : ℤ) (v : Val)
    (hint : pyIntL? mem.data = some n) (hneg : n < 0)
    (hge : -(NUM_MEM : ℤ) ≤ n) (hlen : st.memory.length = NUM_MEM) :
    set_memory st mem v =
      .ok { st with memory := st.memory.set ((NUM_MEM : ℤ) + n).toNat v } := by
  have h1000 : ¬(n ≥ (NUM_MEM : ℤ)) := by
    simp only [NUM_MEM] at *
    omega
  simp only [set_memory, get_memory_number, hint]
  rw [if_neg h1000]
  simp only [pySet, pyIdx, hlen]
  rw [if_neg (not_le.mpr hneg), if_pos hge]
  rfl

lemma get_operand_invalid (st : AQAState) (op : String)
    (hhead : op.data.head? = some '#') (hint : pyIntL? (op.data.drop 1) = none) :
    get_operand st op = .error (.invalidOperand (st.cur_line_num + 1)) := by
  rcases hdata : op.data with _ | ⟨c, rest⟩
  · rw [hdata] at hhead; cases hhead
  · rw [hdata] at hhead
    have hc : c = '#' := by
      simpa using hhead
    subst hc
    rw [hdata] at hint
    simp only [get_operand, hdata]
    rw [if_neg (show ¬(('#' : Char) = 'R') from by decide), if_true, hint]

lemma get_operand_bare (st : AQAState) (op : String)
    (hne : op.data ≠ []) (hR : op.data.head? ≠ some 'R') (hH : op.data.head? ≠ some '#') :
    get_operand st op = .ok none := by
  rcases hdata : op.data with _ | ⟨c, rest⟩
  · exact absurd hdata hne
  · rw [hdata] at hR hH
    have hcR : ¬(c = 'R') := fun hc => hR (by rw [hc]; rfl)
    have hcH : ¬(c = '#') := fun hc => hH (by rw [hc]; rfl)
    simp only [get_operand, hdata]
    rw [if_neg hcR, if_neg hcH]

lemma exec_mov_bare (st : AQAState) (rd op : String) (n : ℤ)
    (hne : op.data ≠ []) (hR : op.data.head? ≠ some 'R') (hH : op.data.head? ≠ some '#')
    (hint : pyIntL? (rd.data.drop 1) = some n) (h0 : 0 ≤ n) (h13 : n < (NUM_REGISTERS : ℤ))
    (hlen : st.registers.length = NUM_REGISTERS) :
    execInstr st "MOV" [rd, op] =
      .ok { st with registers := st.registers.set n.toNat none } := by
  have hmov : execInstr st "MOV" [rd, op] = exec_mov st rd op := rfl
  rw [hmov]
  simp only [exec_mov, get_operand_bare st op hne hR hH]
  simp only [set_register, get_register_number, hint]
  rw [if_neg (not_le.mpr (by exact_mod_cast h13))]
  simp only [pySet, pyIdx, hlen]
  rw [if_pos h0, if_pos (by exact_mod_cast h13)]
  rfl

lemma exec_add_bare (st : AQAState) (rd rs op : String) (m : Val)
    (hne : op.data ≠ []) (hR : op.data.head? ≠ some 'R') (hH : op.data.head? ≠ some '#')
    (hm : get_register st rs = .ok m) :
    execInstr st "ADD" [rd, rs, op] = .error .typeError := by
  have hadd : execInstr st "ADD" [rd, rs, op] = exec_add st rd rs op := rfl
  rw [hadd]
  simp only [exec_add, hm, get_operand_bare st op hne hR hH]

end C4Lemmas

/-- C4 (amended): a register number `n ≥ 13` or `n < −13`, a memory address
`≥ 1000`, and a register/memory/immediate token that does not parse as an
integer each make the instruction fail with an error naming the current
line; but a negative register number in `[−13, 0)` aliases register
`13 + n` and a negative memory address in `[−1000, 0)` aliases cell
`1000 + addr` without error (Python negative indexing), and an operand
starting with neither `R` nor `#` yields Python `None` with no immediate
error: MOV stores it and proceeds, while arithmetic instructions such as
ADD then fail with a `TypeError`. -/
theorem claim_C4_amended :
    (∀ st reg, pyIntL? (reg.data.drop 1) = none →
      get_register_number st reg = .error (.invalidRegisterNumber (st.cur_line_num + 1)))
    ∧ (∀ st reg n, pyIntL? (reg.data.drop 1) = some n → (NUM_REGISTERS : ℤ) ≤ n →
      get_register_number st reg = .error (.registerOutOfRange (st.cur_line_num + 1)))
    ∧ (∀ st reg n v, pyIntL? (reg.data.drop 1) = some n → n < 0 →
      -(NUM_REGISTERS : ℤ) ≤ n → st.registers.length = NUM_REGISTERS →
      set_register st reg v =
        .ok { st with registers := st.registers.set ((NUM_REGISTERS : ℤ) + n).toNat v })
    ∧ (∀ st reg n v, pyIntL? (reg.data.drop 1) = some n → n < -(NUM_REGISTERS : ℤ) →
      st.registers.length = NUM_REGISTERS →
      set_register st reg v = .error .indexError)
    ∧ (∀ st mem, pyIntL? mem.data = none →
      get_memory_number st mem = .error (.invalidMemoryAddress (st.cur_line_num + 1)))
    ∧ (∀ st mem n, pyIntL? mem.data = some n → (NUM_MEM : ℤ) ≤ n →
      get_memory_number st mem = .error (.memoryAddressOutOfRange (st.cur_line_num + 1)))
    ∧ (∀ st mem n v, pyIntL? mem.data = some n → n < 0 →
      -(NUM_MEM : ℤ) ≤ n → st.memory.length = NUM_MEM →
      set_memory st mem v =
        .ok { st with memory := st.memory.set ((NUM_MEM : ℤ) + n).toNat v })
    ∧ (∀ st op, op.data.head? = some '#' → pyIntL? (op.data.drop 1) = none →
      get_operand st op = .error (.invalidOperand (st.cur_line_num + 1)))
    ∧ (∀ st op, op.data ≠ [] → op.data.head? ≠ some 'R' → op.data.head? ≠ some '#' →
      get_operand st op = .ok none)
    ∧ (∀ st rd op n, op.data ≠ [] → op.data.head? ≠ some 'R' → op.data.head? ≠ some '#' →
      pyIntL? (rd.data.drop 1) = some n → 0 ≤ n → n < (NUM_REGISTERS : ℤ) →
      st.registers.length = NUM_REGISTERS →
      execInstr st "MOV" [rd, op] =
        .ok { st with registers := st.registers.set n.toNat none })
    ∧ (∀ st rd rs op m, op.data ≠ [] → op.data.head? ≠ some 'R' →
      op.data.head? ≠ some '#' → get_register st rs = .ok m →
      execInstr st "ADD" [rd, rs, op] = .error .typeError) :=
  ⟨get_register_number_invalid,
   get_register_number_out_of_range,
   set_register_neg_alias,
   set_register_neg_index_error,
   get_memory_number_invalid,
   get_memory_number_out_of_range,
   set_memory_neg_alias,
   get_operand_invalid,
   get_operand_bare,
   exec_mov_bare,
   exec_add_bare⟩

/-- Witness for the amended C4 at a concrete instance: `R13` is rejected
with a register-out-of-range error naming line 1. -/
theorem claim_C4_amended_witness :
    get_register_number initAQAState "R13" =
      .error (.registerOutOfRange (initAQAState.cur_line_num + 1)) :=
  claim_C4_amended.2.1 initAQAState "R13" 13 (by decide) (by decide)

end IsolateWrapper
